import Mathlib

/-!
# complexflag: `Unmarshal` and `UnmarshalInto`

A shallow embedding of `complexflag/unmarshal.go`.

Modelling conventions.

* Go `string` and `[]byte` are both Lean `String`: the embedding covers flag
  values and file contents that are valid UTF-8, and the conversion
  `[]byte(value)` is the identity.
* A Go `error` is `Option Error`; `none` is the `nil` error.
* A Go `interface{}` holding a decoded document is `Value`; `Value.null` is
  the `nil` interface.
* The operating system and the two decoding libraries are collaborators of
  the package.  They are gathered in `Env`, and every call made to them is
  recorded as an `Event` of the run, in order.
* A run either returns or panics (`Outcome`).
-/

namespace Complexflag

/-! ## Data model -/

/-- Format is the type representing the possible formats for the complex
flag structure (`type Format uint8`). -/
abbrev Format := Nat

/-- FormatJSON indicates that the flag is in JSON format. -/
def FormatJSON : Format := 0

/-- FormatYAML indicates that the flag is in YAML format. -/
def FormatYAML : Format := 1

/-- Generic decoded values, as the decoders store them in an `interface{}`:
`float64` numbers are kept as their IEEE-754 bit pattern, maps as association
lists. -/
inductive Value where
  | null
  | bool (b : Bool)
  | int (i : Int)
  | float64 (bits : Nat)
  | str (s : String)
  | seq (items : List Value)
  | map (entries : List (String × Value))

/-- Go error values that reach this package. -/
inductive Error where
  /-- An error of package `os` (`*fs.PathError`); `notExist` tells whether
  `os.IsNotExist` holds of it. -/
  | os (msg : String) (notExist : Bool)
  /-- `*json.SyntaxError`. -/
  | jsonSyntax (msg : String) (Offset : Int)
  /-- `*json.UnmarshalTypeError`. -/
  | jsonUnmarshalType (Value : String) (Typ : String) (Offset : Int)
      (Struct : String) (Field : String)
  /-- `*yaml.TypeError`. -/
  | yamlType (Errors : List String)
  /-- Any other error of a collaborator, with its message and the name of its
  dynamic type. -/
  | other (msg : String) (typeName : String)
  /-- `fmt.Errorf` without a `%w` verb. -/
  | errorString (msg : String)
  /-- `fmt.Errorf` with a `%w` verb: the message and the wrapped error. -/
  | wrapError (msg : String) (err : Error)

namespace Error

/-- The `Error()` method. -/
def text : Complexflag.Error → String
  | .os msg _ => msg
  | .jsonSyntax msg _ => msg
  | .jsonUnmarshalType v t _ s f =>
      if s ≠ "" ∨ f ≠ "" then
        "json: cannot unmarshal " ++ v ++ " into Go struct field " ++ s ++ "." ++ f
          ++ " of type " ++ t
      else
        "json: cannot unmarshal " ++ v ++ " into Go value of type " ++ t
  | .yamlType errs => "yaml: unmarshal errors:\n  " ++ "\n  ".intercalate errs
  | .other msg _ => msg
  | .errorString msg => msg
  | .wrapError msg _ => msg

/-- The name of the dynamic type, as the `%T` verb prints it. -/
def typeName : Complexflag.Error → String
  | .os _ _ => "*fs.PathError"
  | .jsonSyntax _ _ => "*json.SyntaxError"
  | .jsonUnmarshalType _ _ _ _ _ => "*json.UnmarshalTypeError"
  | .yamlType _ => "*yaml.TypeError"
  | .other _ t => t
  | .errorString _ => "*errors.errorString"
  | .wrapError _ _ => "*fmt.wrapError"

/-- The `Unwrap()` method. -/
def Unwrap : Complexflag.Error → Option Complexflag.Error
  | .wrapError _ err => some err
  | _ => none

end Error

/-- The part of `os.FileInfo` the package looks at. -/
structure FileInfo where
  isDir : Bool

/-- The static type of the value a decoder is pointed at. -/
inductive Shape where
  /-- `map[string]interface{}`. -/
  | mapping
  /-- `[]interface{}`. -/
  | sequence
  /-- Any other type, chosen by the caller of `UnmarshalInto`. -/
  | typed
deriving DecidableEq

/-- The values of a target of the given shape; `τ` stands for the caller's
own types. -/
@[reducible] def Target (τ : Type) : Shape → Type
  | .mapping => List (String × Value)
  | .sequence => List Value
  | .typed => τ

/-- The collaborators of the package.
* `stat`, `readFile`: the filesystem, as `os.Stat` and `ioutil.ReadFile` see it;
* `jsonDecode`, `yamlDecode`: `json.Unmarshal` and `yaml.Unmarshal`, giving the
  target after the call and the error returned;
* `toLowerNonASCII`: `unicode.ToLower` on runes above `unicode.MaxASCII`. -/
structure Env (τ : Type) where
  stat : String → Except Error FileInfo
  readFile : String → Except Error String
  jsonDecode : (s : Shape) → String → Target τ s → Target τ s × Option Error
  yamlDecode : (s : Shape) → String → Target τ s → Target τ s × Option Error
  toLowerNonASCII : Char → Char

/-- Calls to the collaborators. -/
inductive Event where
  | Stat (name : String)
  | ReadFile (name : String)
  | jsonUnmarshal (data : String) (shape : Shape)
  | yamlUnmarshal (data : String) (shape : Shape)
deriving DecidableEq

/-- How a run ends. -/
inductive Outcome (α : Type) where
  | returned (a : α)
  /-- A run-time panic (nil dereference). -/
  | panicked

/-- A run: how it ends and the calls it made, in order. -/
structure Run (α : Type) where
  outcome : Outcome α
  trace : List Event

namespace Run

/-- A run that returns at once. -/
def ret {α : Type} (a : α) : Run α := ⟨.returned a, []⟩

/-- A run that panics at once. -/
def panic {α : Type} : Run α := ⟨.panicked, []⟩

/-- Sequencing: a panic stops the run. -/
def andThen {α β : Type} (x : Run α) (f : α → Run β) : Run β :=
  match x.outcome with
  | .panicked => ⟨.panicked, x.trace⟩
  | .returned a => ⟨(f a).outcome, x.trace ++ (f a).trace⟩

instance : Monad Run where
  pure := Run.ret
  bind := Run.andThen

end Run

/-- The events that are calls to a decoder. -/
def Event.isDecode : Event → Bool
  | .jsonUnmarshal _ _ => true
  | .yamlUnmarshal _ _ => true
  | _ => false

/-! ## The library functions the package calls -/

namespace unicode

/-- IsSpace reports whether the rune is a space character as defined by
Unicode's White Space property. -/
def IsSpace (r : Char) : Bool :=
  r = '\t' || r = '\n' || r.val = 0x0B || r.val = 0x0C || r = '\r' || r = ' '
    || r.val = 0x85 || r.val = 0xA0 || r.val = 0x1680
    || (0x2000 ≤ r.val && r.val ≤ 0x200A)
    || r.val = 0x2028 || r.val = 0x2029 || r.val = 0x202F || r.val = 0x205F
    || r.val = 0x3000

/-- ToLower maps the rune to lower case. -/
def ToLower (nonASCII : Char → Char) (r : Char) : Char :=
  if r.val ≤ 0x7F then
    (if 'A' ≤ r ∧ r ≤ 'Z' then Char.ofNat (r.toNat + ('a'.toNat - 'A'.toNat)) else r)
  else nonASCII r

end unicode

namespace strings

/-- HasPrefix reports whether the string s begins with pre. -/
def HasPrefix (s pre : String) : Bool := pre.data.isPrefixOf s.data

/-- HasSuffix reports whether the string s ends with suffix. -/
def HasSuffix (s suffix : String) : Bool := suffix.data.isSuffixOf s.data

/-- TrimPrefix returns s without the provided leading string; s is returned
unchanged if it does not start with it. -/
def TrimPrefix (s pre : String) : String :=
  if HasPrefix s pre then ⟨s.data.drop pre.data.length⟩ else s

/-- TrimSpace returns s with all leading and trailing white space removed, as
defined by Unicode. -/
def TrimSpace (s : String) : String :=
  ⟨((s.data.dropWhile unicode.IsSpace).reverse.dropWhile unicode.IsSpace).reverse⟩

/-- ToLower returns s with all Unicode letters mapped to their lower case. -/
def ToLower (nonASCII : Char → Char) (s : String) : String :=
  ⟨s.data.map (unicode.ToLower nonASCII)⟩

end strings

namespace path

/-- The loop of `Ext`: walks the path from its last byte backwards, `rest`
being what is still to the left and `acc` what has been passed. -/
def extScan : List Char → List Char → List Char
  | [], _ => []
  | c :: rest, acc =>
      if c = '/' then []
      else if c = '.' then c :: acc
      else extScan rest (c :: acc)

/-- Ext returns the file name extension used by path: the suffix beginning at
the final dot in the final slash-separated element of path; it is empty if
there is no dot. -/
def Ext (p : String) : String := ⟨extScan p.data.reverse []⟩

end path

namespace fmt

/-- Errorf with one `%w` verb, between `before` and `after`: the result wraps
the operand; a nil operand is printed as `%!w(<nil>)` and nothing is wrapped. -/
def Errorfw (before : String) (err : Option Error) (after : String) : Error :=
  match err with
  | some e => .wrapError (before ++ e.text ++ after) e
  | none => .errorString (before ++ "%!w(<nil>)" ++ after)

/-- The `%+v` rendering of a `[]string`. -/
def stringSlice (xs : List String) : String := "[" ++ " ".intercalate xs ++ "]"

end fmt

namespace os

/-- Stat returns a FileInfo describing the named file, or a nil FileInfo and
an error. -/
def Stat {τ : Type} (env : Env τ) (name : String) : Run (Option FileInfo × Option Error) :=
  ⟨.returned (match env.stat name with
      | .ok info => (some info, none)
      | .error e => (none, some e)), [.Stat name]⟩

/-- IsNotExist reports whether the error is known to report that a file or
directory does not exist. -/
def IsNotExist (err : Option Error) : Bool :=
  match err with
  | some (.os _ notExist) => notExist
  | _ => false

end os

/-- The method call `info.IsDir()` on an interface value: it panics when the
interface is nil. -/
def IsDir (info : Option FileInfo) : Run Bool :=
  match info with
  | some i => pure i.isDir
  | none => Run.panic

namespace ioutil

/-- ReadFile reads the named file and returns its contents. -/
def ReadFile {τ : Type} (env : Env τ) (name : String) : Run (String × Option Error) :=
  ⟨.returned (match env.readFile name with
      | .ok content => (content, none)
      | .error e => ("", some e)), [.ReadFile name]⟩

end ioutil

namespace json

/-- Unmarshal parses the JSON-encoded data and stores the result in the value
pointed to by `v`. -/
def Unmarshal {τ : Type} (env : Env τ) (data : String) (s : Shape) (v : Target τ s) :
    Run (Target τ s × Option Error) :=
  ⟨.returned (env.jsonDecode s data v), [.jsonUnmarshal data s]⟩

end json

namespace yaml

/-- Unmarshal decodes the first document found within the data and assigns
decoded values into the out value. -/
def Unmarshal {τ : Type} (env : Env τ) (data : String) (s : Shape) (out : Target τ s) :
    Run (Target τ s × Option Error) :=
  ⟨.returned (env.yamlDecode s data out), [.yamlUnmarshal data s]⟩

end yaml

/-! ## The package -/

/-- What the first half of `Unmarshal` and of `UnmarshalInto` ends with:
either the function has returned `err`, or `content` and `format` are set. -/
inductive Classified where
  | fail (err : Error)
  | ok (content : String) (format : Format)

/-- Lines 33 to 72 of `Unmarshal`: where the data is and which format it has. -/
def Unmarshal.classify {τ : Type} (env : Env τ) (value : String) : Run Classified :=
  if strings.HasPrefix value "@" then do
    -- it's a file on disk, check it exist
    let filename := strings.TrimPrefix value "@"
    let (info, err) ← os.Stat env filename
    if os.IsNotExist err then
      pure (.fail (fmt.Errorfw ("file '" ++ filename ++ "' does not exist: ") err ""))
    else do
      if ← IsDir info then
        pure (.fail (.errorString ("'" ++ filename ++ "' is a directory, not a file")))
      else do
        -- read into memory
        let (content, err) ← ioutil.ReadFile env filename
        match err with
        | some _ =>
            pure (.fail (fmt.Errorfw ("error reading file '" ++ filename ++ "': ") err ""))
        | none =>
            -- type detection is based on file extension
            let ext := path.Ext filename
            let lower := strings.ToLower env.toLowerNonASCII ext
            if lower = ".yaml" ∨ lower = ".yml" then
              pure (.ok content FormatYAML)
            else if lower = ".json" then
              pure (.ok content FormatJSON)
            else
              pure (.fail (.errorString
                ("unsupported data format in file: " ++ path.Ext filename)))
  else
    -- not a file, type detection is based on the data
    let value := strings.TrimSpace value
    let content := value
    if strings.HasPrefix value "---" then
      pure (.ok content FormatYAML)
    else if strings.HasPrefix value "\x7b" || strings.HasPrefix value "[" then
      pure (.ok content FormatJSON)
    else
      pure (.fail (.errorString "unrecognisable input format in inline data"))

/-- The loop over `err.Errors` in the YAML branch of `Unmarshal` (lines 104 to
114): `err` is the type error of the first attempt, the list is what is left
to range over. -/
def Unmarshal.rangeErrors {τ : Type} (env : Env τ) (content : String) (err : Error)
    (Errors : List String) : List String → Run (Value × Option Error)
  | [] =>
      pure (.null, some (.errorString
        ("error: " ++ err.text ++ ", " ++ fmt.stringSlice Errors)))
  | e :: rest =>
      if strings.HasSuffix e "cannot unmarshal !!seq into map[string]interface {}" then do
        -- second attempt: it is not a struct, it's an array, let's try that...
        let (a, err) ← yaml.Unmarshal env content .sequence []
        match err with
        | some _ => pure (.null, some (fmt.Errorfw "error unmarshalling from YAML: " err ""))
        | none => pure (.seq a, none)
      else
        Unmarshal.rangeErrors env content err Errors rest

/-- Lines 74 to 122 of `Unmarshal`: depending on the format, unmarshal to JSON
or YAML. -/
def Unmarshal.decode {τ : Type} (env : Env τ) (content : String) (format : Format) :
    Run (Value × Option Error) :=
  match format with
  | 0 => do
      -- first attempt: unmarshalling to a map (like a struct would)...
      let (m, err) ← json.Unmarshal env content .mapping []
      match err with
      | some (.jsonUnmarshalType v _ offset _ _) =>
          if v = "array" ∧ offset = 1 then do
            -- second attempt: it is not a struct, it's an array, let's try that...
            let (a, err) ← yaml.Unmarshal env content .sequence []
            match err with
            | some _ =>
                pure (.null, some (fmt.Errorfw "error unmarshalling from JSON: " err ""))
            | none => pure (.seq a, none)
          else
            pure (.null, some (fmt.Errorfw "error unmarshalling from JSON: " err ""))
      | some _ => pure (.null, some (fmt.Errorfw "error unmarshalling from JSON: " err ""))
      | none => pure (.map m, none)
  | 1 => do
      let (object, err) ← yaml.Unmarshal env content .mapping []
      match err with
      | some (.yamlType Errors) =>
          Unmarshal.rangeErrors env content (.yamlType Errors) Errors Errors
      | some e =>
          pure (.null, some (fmt.Errorfw "error unmarshalling from YAML: " err
            (" (" ++ e.typeName ++ ")")))
      | none => pure (.map object, none)
  | _ => pure (.null, some (.errorString ("unsupported encoding: " ++ toString format)))

/-- Unmarshal unmarshals a complex command line flag into an argument; if the
command line argument starts with a '@' it is assumed to be a file on the
local filesystem, it is read into memory and then unmarshalled; if it does not
start with '@', it can be either a YAML inline representation (in which case
it MUST start with '---') or an inline JSON representation and is unmarshalled
accordingly. -/
def Unmarshal {τ : Type} (env : Env τ) (value : String) : Run (Value × Option Error) := do
  match ← Unmarshal.classify env value with
  | .fail err => pure (.null, some err)
  | .ok content format => Unmarshal.decode env content format

/-- Lines 126 to 165 of `UnmarshalInto`: where the data is and which format it
has. -/
def UnmarshalInto.classify {τ : Type} (env : Env τ) (value : String) : Run Classified :=
  if strings.HasPrefix value "@" then do
    -- it's a file on disk, check it exist
    let filename := strings.TrimPrefix value "@"
    let (info, err) ← os.Stat env filename
    if os.IsNotExist err then
      pure (.fail (fmt.Errorfw ("file '" ++ filename ++ "' does not exist: ") err ""))
    else do
      if ← IsDir info then
        pure (.fail (.errorString ("'" ++ filename ++ "' is a directory, not a file")))
      else do
        -- read into memory
        let (content, err) ← ioutil.ReadFile env filename
        match err with
        | some _ =>
            pure (.fail (fmt.Errorfw ("error reading file '" ++ filename ++ "': ") err ""))
        | none =>
            -- type detection is based on file extension
            let ext := path.Ext filename
            let lower := strings.ToLower env.toLowerNonASCII ext
            if lower = ".yaml" ∨ lower = ".yml" then
              pure (.ok content FormatYAML)
            else if lower = ".json" then
              pure (.ok content FormatJSON)
            else
              pure (.fail (.errorString
                ("unsupported data format in file: " ++ path.Ext filename)))
  else
    -- not a file, type detection is based on the data
    let value := strings.TrimSpace value
    let content := value
    if strings.HasPrefix value "---" then
      pure (.ok content FormatYAML)
    else if strings.HasPrefix value "\x7b" || strings.HasPrefix value "[" then
      pure (.ok content FormatJSON)
    else
      pure (.fail (.errorString "unrecognisable input format in inline data"))

/-- Lines 167 to 180 of `UnmarshalInto`: depending on the format, unmarshal to
JSON or YAML. -/
def UnmarshalInto.decode {τ : Type} (env : Env τ) (content : String) (format : Format)
    (s : Shape) (target : Target τ s) : Run (Target τ s × Option Error) :=
  match format with
  | 0 => do
      let (target, err) ← json.Unmarshal env content s target
      match err with
      | some _ => pure (target, some (fmt.Errorfw "error unmarshalling from JSON: " err ""))
      | none => pure (target, none)
  | 1 => do
      let (target, err) ← yaml.Unmarshal env content s target
      match err with
      | some e =>
          pure (target, some (fmt.Errorfw "error unmarshalling from YAML: " err
            (" (" ++ e.typeName ++ ")")))
      | none => pure (target, none)
  | _ => pure (target, some (.errorString ("unsupported encoding: " ++ toString format)))

/-- UnmarshalInto: as `Unmarshal`, but the data is decoded into the caller's
`target`; the result is the target after the call and the error returned. -/
def UnmarshalInto {τ : Type} (env : Env τ) (value : String) (s : Shape)
    (target : Target τ s) : Run (Target τ s × Option Error) := do
  match ← UnmarshalInto.classify env value with
  | .fail err => pure (target, some err)
  | .ok content format => UnmarshalInto.decode env content format s target

/-! ## A sample world

The documents of the package's tests and a few more, with what the two
libraries return on them, and a small filesystem. -/

/-- The record type `s` of the tests. -/
structure Person where
  Name : String
  Surname : String
  Age : Int

/-- The text `{"name":"John","surname":"Doe","age":23}`. -/
def structJSON : String := "\x7b\"name\":\"John\",\"surname\":\"Doe\",\"age\":23\x7d"

/-- The text `["one","two","three"]`. -/
def arrayJSON : String := "[\"one\",\"two\",\"three\"]"

/-- The text `[23]`. -/
def numbersJSON : String := "[23]"

/-- The text `{"a": }`. -/
def missingValueJSON : String := "\x7b\"a\": \x7d"

/-- A YAML document holding a mapping. -/
def structYAML : String := "---\nname: John\nsurname: Doe\nage: 23"

/-- A YAML document holding a sequence. -/
def arrayYAML : String := "---\n- one\n- two\n- three"

/-- A YAML document holding a scalar. -/
def scalarYAML : String := "--- 42"

/-- The bit pattern of the `float64` 23. -/
def float23 : Nat := 0x4037000000000000

/-- What `json.Unmarshal` does on the sample documents (leading white space
moves the offsets by its length); on other data nothing is recorded. -/
def sampleJSON : (s : Shape) → String → Target Person s → Target Person s × Option Error
  | .mapping, data, v =>
      if data = structJSON then
        ([("name", .str "John"), ("surname", .str "Doe"), ("age", .float64 float23)], none)
      else if data = arrayJSON ∨ data = numbersJSON then
        (v, some (.jsonUnmarshalType "array" "map[string]interface {}" 1 "" ""))
      else if data = "\n" ++ arrayJSON then
        (v, some (.jsonUnmarshalType "array" "map[string]interface {}" 2 "" ""))
      else if data = missingValueJSON then
        (v, some (.jsonSyntax "invalid character '\x7d' looking for beginning of value" 7))
      else (v, some (.other "not recorded" ""))
  | .sequence, data, v =>
      if data = arrayJSON ∨ data = "\n" ++ arrayJSON then
        ([.str "one", .str "two", .str "three"], none)
      else if data = numbersJSON then ([.float64 float23], none)
      else (v, some (.other "not recorded" ""))
  | .typed, data, v =>
      if data = structJSON then (⟨"John", "Doe", 23⟩, none)
      else (v, some (.other "not recorded" ""))

/-- What `yaml.Unmarshal` does on the sample documents. -/
def sampleYAML : (s : Shape) → String → Target Person s → Target Person s × Option Error
  | .mapping, data, v =>
      if data = structYAML then
        ([("name", .str "John"), ("surname", .str "Doe"), ("age", .int 23)], none)
      else if data = arrayYAML then
        (v, some (.yamlType ["line 2: cannot unmarshal !!seq into map[string]interface {}"]))
      else if data = scalarYAML then
        (v, some (.yamlType
          ["line 1: cannot unmarshal !!int \x6042\x60 into map[string]interface {}"]))
      else (v, some (.other "not recorded" ""))
  | .sequence, data, v =>
      if data = arrayYAML ∨ data = arrayJSON ∨ data = "\n" ++ arrayJSON then
        ([.str "one", .str "two", .str "three"], none)
      else if data = numbersJSON then ([.int 23], none)
      else (v, some (.other "not recorded" ""))
  | .typed, data, v =>
      if data = structYAML then (⟨"John", "Doe", 23⟩, none)
      else (v, some (.other "not recorded" ""))

/-- The sample filesystem: `struct.json`, `array.json`, `spaced.json` (an array
after a line break), `numbers.JSON`, `struct.yaml`, `array.yml` and `data.toml`
are files, `adir` is a directory, `locked/secret.json` is in a directory that
may not be searched, and nothing else exists. -/
def sampleStat (name : String) : Except Error FileInfo :=
  if name = "struct.json" ∨ name = "array.json" ∨ name = "spaced.json"
      ∨ name = "numbers.JSON" ∨ name = "struct.yaml" ∨ name = "array.yml"
      ∨ name = "data.toml" then .ok ⟨false⟩
  else if name = "adir" then .ok ⟨true⟩
  else if name = "locked/secret.json" then
    .error (.os ("stat " ++ name ++ ": permission denied") false)
  else .error (.os ("stat " ++ name ++ ": no such file or directory") true)

/-- The contents of the sample files. -/
def sampleReadFile (name : String) : Except Error String :=
  if name = "struct.json" then .ok structJSON
  else if name = "array.json" then .ok arrayJSON
  else if name = "spaced.json" then .ok ("\n" ++ arrayJSON)
  else if name = "numbers.JSON" then .ok numbersJSON
  else if name = "struct.yaml" then .ok structYAML
  else if name = "array.yml" then .ok arrayYAML
  else if name = "data.toml" then .ok "answer = 42\n"
  else if name = "adir" then .error (.os ("read " ++ name ++ ": is a directory") false)
  else if name = "locked/secret.json" then
    .error (.os ("open " ++ name ++ ": permission denied") false)
  else .error (.os ("open " ++ name ++ ": no such file or directory") true)

/-- The sample world. -/
def sample : Env Person where
  stat := sampleStat
  readFile := sampleReadFile
  jsonDecode := sampleJSON
  yamlDecode := sampleYAML
  toLowerNonASCII := id

/-- A YAML decoder that, asked for a mapping, lists the sequence-for-mapping
mismatch twice; for the other targets it is the sample decoder. -/
def doubledYAML : (s : Shape) → String → Target Person s → Target Person s × Option Error
  | .mapping, _, v =>
      (v, some (.yamlType ["line 2: cannot unmarshal !!seq into map[string]interface {}",
        "line 2: cannot unmarshal !!seq into map[string]interface {}"]))
  | .sequence, data, v => sampleYAML .sequence data v
  | .typed, data, v => sampleYAML .typed data v

/-- The sample world with the decoder `doubledYAML`. -/
def doubled : Env Person where
  stat := sampleStat
  readFile := sampleReadFile
  jsonDecode := sampleJSON
  yamlDecode := doubledYAML
  toLowerNonASCII := id

/-! ## Kinds of decoding failure -/

/-- The failure is a `*json.UnmarshalTypeError` that reports an array.  The
target of the first attempt is a `map[string]interface{}`, whose values accept
any JSON value, so the array it reports is the root of the document. -/
def Error.isArrayMismatch : Error → Bool
  | .jsonUnmarshalType v _ _ _ _ => decide (v = "array")
  | _ => false

/-- The failure is a `*yaml.TypeError` one of whose sub-errors reports a
sequence where the mapping was expected. -/
def Error.isSeqForMapping : Error → Bool
  | .yamlType errs =>
      errs.any (fun e => strings.HasSuffix e "cannot unmarshal !!seq into map[string]interface {}")
  | _ => false

/-! ## Runs -/

@[simp] theorem Run.bind_eq {α β : Type} (x : Run α) (f : α → Run β) :
    x >>= f = Run.andThen x f := rfl

@[simp] theorem Run.pure_eq {α : Type} (a : α) : (pure a : Run α) = Run.ret a := rfl

@[simp] theorem Run.ret_andThen {α β : Type} (a : α) (f : α → Run β) :
    Run.andThen (Run.ret a) f = f a := by
  simp [Run.andThen, Run.ret]

@[simp] theorem Run.panic_andThen {α β : Type} (f : α → Run β) :
    Run.andThen (Run.panic : Run α) f = Run.panic := by
  simp [Run.andThen, Run.panic]

@[simp] theorem Run.mk_returned_andThen {α β : Type} (a : α) (t : List Event)
    (f : α → Run β) :
    Run.andThen ⟨.returned a, t⟩ f = ⟨(f a).outcome, t ++ (f a).trace⟩ := by
  simp [Run.andThen]

@[simp] theorem Run.mk_panicked_andThen {α β : Type} (t : List Event) (f : α → Run β) :
    Run.andThen (⟨.panicked, t⟩ : Run α) f = ⟨.panicked, t⟩ := by
  simp [Run.andThen]

/-! ## The two halves of the functions -/

theorem Unmarshal_eq {τ : Type} (env : Env τ) (value : String) :
    Unmarshal env value = Run.andThen (Unmarshal.classify env value) (fun c =>
      match c with
      | .fail err => Run.ret (.null, some err)
      | .ok content format => Unmarshal.decode env content format) := rfl

theorem UnmarshalInto_eq {τ : Type} (env : Env τ) (value : String) (s : Shape)
    (target : Target τ s) :
    UnmarshalInto env value s target =
      Run.andThen (UnmarshalInto.classify env value) (fun c =>
        match c with
        | .fail err => Run.ret (target, some err)
        | .ok content format => UnmarshalInto.decode env content format s target) := rfl

theorem UnmarshalInto.classify_eq {τ : Type} (env : Env τ) (value : String) :
    UnmarshalInto.classify env value = Unmarshal.classify env value := rfl

theorem Unmarshal.classify_inline {τ : Type} (env : Env τ) (value : String)
    (h : strings.HasPrefix value "@" = false) :
    Unmarshal.classify env value =
      if strings.HasPrefix (strings.TrimSpace value) "---" then
        Run.ret (.ok (strings.TrimSpace value) FormatYAML)
      else if strings.HasPrefix (strings.TrimSpace value) "\x7b"
          || strings.HasPrefix (strings.TrimSpace value) "[" then
        Run.ret (.ok (strings.TrimSpace value) FormatJSON)
      else Run.ret (.fail (.errorString "unrecognisable input format in inline data")) := by
  unfold Unmarshal.classify
  simp only [h, Bool.false_eq_true, if_false, Run.pure_eq]

theorem Unmarshal.of_classified {τ : Type} (env : Env τ) (value content : String)
    (format : Format) (t : List Event)
    (h : Unmarshal.classify env value = ⟨.returned (.ok content format), t⟩) :
    Unmarshal env value = ⟨(Unmarshal.decode env content format).outcome,
      t ++ (Unmarshal.decode env content format).trace⟩ := by
  rw [Unmarshal_eq, h]; simp

theorem Unmarshal.of_failed {τ : Type} (env : Env τ) (value : String) (err : Error)
    (t : List Event) (h : Unmarshal.classify env value = ⟨.returned (.fail err), t⟩) :
    Unmarshal env value = ⟨.returned (.null, some err), t⟩ := by
  rw [Unmarshal_eq, h]; simp [Run.ret]

theorem Unmarshal.of_panicked {τ : Type} (env : Env τ) (value : String)
    (t : List Event) (h : Unmarshal.classify env value = ⟨.panicked, t⟩) :
    Unmarshal env value = ⟨.panicked, t⟩ := by
  rw [Unmarshal_eq, h]; simp [Run.andThen]

theorem UnmarshalInto.into_of_classified {τ : Type} (env : Env τ) (value content : String)
    (format : Format) (t : List Event) (s : Shape) (target : Target τ s)
    (h : Unmarshal.classify env value = ⟨.returned (.ok content format), t⟩) :
    UnmarshalInto env value s target =
      ⟨(UnmarshalInto.decode env content format s target).outcome,
        t ++ (UnmarshalInto.decode env content format s target).trace⟩ := by
  rw [UnmarshalInto_eq, UnmarshalInto.classify_eq, h]; simp

theorem UnmarshalInto.into_of_failed {τ : Type} (env : Env τ) (value : String) (err : Error)
    (t : List Event) (s : Shape) (target : Target τ s)
    (h : Unmarshal.classify env value = ⟨.returned (.fail err), t⟩) :
    UnmarshalInto env value s target = ⟨.returned (target, some err), t⟩ := by
  rw [UnmarshalInto_eq, UnmarshalInto.classify_eq, h]; simp [Run.ret]

theorem UnmarshalInto.into_of_panicked {τ : Type} (env : Env τ) (value : String)
    (t : List Event) (s : Shape) (target : Target τ s)
    (h : Unmarshal.classify env value = ⟨.panicked, t⟩) :
    UnmarshalInto env value s target = ⟨.panicked, t⟩ := by
  rw [UnmarshalInto_eq, UnmarshalInto.classify_eq, h]; simp [Run.andThen]

theorem Unmarshal.decode_json_head {τ : Type} (env : Env τ) (content : String) :
    (Unmarshal.decode env content FormatJSON).trace.head?
      = some (.jsonUnmarshal content .mapping) := by
  simp [Unmarshal.decode, FormatJSON, json.Unmarshal]

theorem Unmarshal.decode_yaml_head {τ : Type} (env : Env τ) (content : String) :
    (Unmarshal.decode env content FormatYAML).trace.head?
      = some (.yamlUnmarshal content .mapping) := by
  simp [Unmarshal.decode, FormatYAML, yaml.Unmarshal]

/-! ## Inline data -/

/-- C1: for an input that does not start with '@', the text with its white
space trimmed is the content: when it begins with "---" the YAML decoder is
called on it, when it begins with an opening brace or bracket the JSON decoder
is called on it, and otherwise `Unmarshal` returns the error "unrecognisable
input format in inline data" and has called nothing. -/
theorem Unmarshal_inline_sniff {τ : Type} (env : Env τ) (value : String)
    (h : strings.HasPrefix value "@" = false) :
    (strings.HasPrefix (strings.TrimSpace value) "---" = true →
        Unmarshal env value = Unmarshal.decode env (strings.TrimSpace value) FormatYAML
        ∧ (Unmarshal env value).trace.head?
            = some (.yamlUnmarshal (strings.TrimSpace value) .mapping))
    ∧ (strings.HasPrefix (strings.TrimSpace value) "---" = false →
        (strings.HasPrefix (strings.TrimSpace value) "\x7b" = true
          ∨ strings.HasPrefix (strings.TrimSpace value) "[" = true) →
        Unmarshal env value = Unmarshal.decode env (strings.TrimSpace value) FormatJSON
        ∧ (Unmarshal env value).trace.head?
            = some (.jsonUnmarshal (strings.TrimSpace value) .mapping))
    ∧ (strings.HasPrefix (strings.TrimSpace value) "---" = false →
        strings.HasPrefix (strings.TrimSpace value) "\x7b" = false →
        strings.HasPrefix (strings.TrimSpace value) "[" = false →
        Unmarshal env value = ⟨.returned (.null,
          some (.errorString "unrecognisable input format in inline data")), []⟩) := by
  have hc := Unmarshal.classify_inline env value h
  refine ⟨fun hy => ?_, fun hy hj => ?_, fun hy hb hk => ?_⟩
  · have e : Unmarshal env value
        = Unmarshal.decode env (strings.TrimSpace value) FormatYAML := by
      rw [Unmarshal_eq, hc]; simp [hy]
    exact ⟨e, by rw [e]; exact Unmarshal.decode_yaml_head env _⟩
  · have e : Unmarshal env value
        = Unmarshal.decode env (strings.TrimSpace value) FormatJSON := by
      rw [Unmarshal_eq, hc]
      rcases hj with hj | hj <;> simp [hy, hj]
    exact ⟨e, by rw [e]; exact Unmarshal.decode_json_head env _⟩
  · rw [Unmarshal_eq, hc]; simp [hy, hb, hk, Run.ret]

/-- C1 at the empty string, at white space, at a bare scalar, at text that
begins with two dashes, at a JSON array and at a YAML document. -/
theorem Unmarshal_inline_sniff_witness :
    (strings.HasPrefix "" "@" = false
      ∧ Unmarshal sample "" = ⟨.returned (.null,
          some (.errorString "unrecognisable input format in inline data")), []⟩)
    ∧ Unmarshal sample " \t\n " = ⟨.returned (.null,
          some (.errorString "unrecognisable input format in inline data")), []⟩
    ∧ Unmarshal sample "42" = ⟨.returned (.null,
          some (.errorString "unrecognisable input format in inline data")), []⟩
    ∧ Unmarshal sample "\n--\nname: John\n" = ⟨.returned (.null,
          some (.errorString "unrecognisable input format in inline data")), []⟩
    ∧ (Unmarshal sample "\n\t[23]\n").trace.head? = some (.jsonUnmarshal "[23]" .mapping)
    ∧ (Unmarshal sample "\n---\n- one\n- two\n- three\t\n").trace.head?
        = some (.yamlUnmarshal arrayYAML .mapping) :=
  ⟨⟨by decide, (Unmarshal_inline_sniff sample "" (by decide)).2.2
      (by decide) (by decide) (by decide)⟩,
    (Unmarshal_inline_sniff sample " \t\n " (by decide)).2.2
      (by decide) (by decide) (by decide),
    (Unmarshal_inline_sniff sample "42" (by decide)).2.2
      (by decide) (by decide) (by decide),
    (Unmarshal_inline_sniff sample "\n--\nname: John\n" (by decide)).2.2
      (by decide) (by decide) (by decide),
    ((Unmarshal_inline_sniff sample "\n\t[23]\n" (by decide)).2.1
      (by decide) (Or.inr (by decide))).2,
    ((Unmarshal_inline_sniff sample "\n---\n- one\n- two\n- three\t\n" (by decide)).1
      (by decide)).2⟩

/-! ## File references -/

theorem strings.HasPrefix_at (p : String) : strings.HasPrefix ("@" ++ p) "@" = true := by
  simp [strings.HasPrefix, String.data_append]

theorem strings.TrimPrefix_at (p : String) : strings.TrimPrefix ("@" ++ p) "@" = p := by
  simp [strings.TrimPrefix, strings.HasPrefix, String.data_append]

theorem Unmarshal.classify_notExist {τ : Type} (env : Env τ) (p : String) (e : Error)
    (hs : env.stat p = .error e) (hn : os.IsNotExist (some e) = true) :
    Unmarshal.classify env ("@" ++ p) = ⟨.returned (.fail
      (.wrapError ("file '" ++ p ++ "' does not exist: " ++ e.text) e)), [.Stat p]⟩ := by
  unfold Unmarshal.classify
  simp [strings.HasPrefix_at, strings.TrimPrefix_at, os.Stat, hs, hn, fmt.Errorfw, Run.ret]

theorem Unmarshal.classify_statError {τ : Type} (env : Env τ) (p : String) (e : Error)
    (hs : env.stat p = .error e) (hn : os.IsNotExist (some e) = false) :
    Unmarshal.classify env ("@" ++ p) = ⟨.panicked, [.Stat p]⟩ := by
  unfold Unmarshal.classify
  simp [strings.HasPrefix_at, strings.TrimPrefix_at, os.Stat, hs, hn, IsDir, Run.panic]

theorem Unmarshal.classify_dir {τ : Type} (env : Env τ) (p : String) (info : FileInfo)
    (hs : env.stat p = .ok info) (hd : info.isDir = true) :
    Unmarshal.classify env ("@" ++ p) = ⟨.returned (.fail
      (.errorString ("'" ++ p ++ "' is a directory, not a file"))), [.Stat p]⟩ := by
  unfold Unmarshal.classify
  simp [strings.HasPrefix_at, strings.TrimPrefix_at, os.Stat, hs, hd, IsDir, os.IsNotExist,
    Run.ret]

theorem Unmarshal.classify_readError {τ : Type} (env : Env τ) (p : String)
    (info : FileInfo) (e : Error)
    (hs : env.stat p = .ok info) (hd : info.isDir = false) (hr : env.readFile p = .error e) :
    Unmarshal.classify env ("@" ++ p) = ⟨.returned (.fail
      (.wrapError ("error reading file '" ++ p ++ "': " ++ e.text) e)),
      [.Stat p, .ReadFile p]⟩ := by
  unfold Unmarshal.classify
  simp [strings.HasPrefix_at, strings.TrimPrefix_at, os.Stat, hs, hd, IsDir, os.IsNotExist,
    Run.ret, ioutil.ReadFile, hr, fmt.Errorfw]

theorem Unmarshal.classify_file {τ : Type} (env : Env τ) (p : String)
    (info : FileInfo) (content : String)
    (hs : env.stat p = .ok info) (hd : info.isDir = false) (hr : env.readFile p = .ok content) :
    Unmarshal.classify env ("@" ++ p) = ⟨.returned
      (if strings.ToLower env.toLowerNonASCII (path.Ext p) = ".yaml"
          ∨ strings.ToLower env.toLowerNonASCII (path.Ext p) = ".yml" then
        .ok content FormatYAML
      else if strings.ToLower env.toLowerNonASCII (path.Ext p) = ".json" then
        .ok content FormatJSON
      else .fail (.errorString ("unsupported data format in file: " ++ path.Ext p))),
      [.Stat p, .ReadFile p]⟩ := by
  unfold Unmarshal.classify
  simp only [strings.HasPrefix_at, strings.TrimPrefix_at, os.Stat, hs, hd, IsDir,
    os.IsNotExist, Run.ret, ioutil.ReadFile, hr, if_true, Run.bind_eq, Run.pure_eq,
    Run.mk_returned_andThen, Bool.false_eq_true, if_false]
  split <;> [skip; split] <;> simp

/-! ## Decoding -/

theorem Unmarshal.decode_json_ok {τ : Type} (env : Env τ) (content : String)
    (h : (env.jsonDecode .mapping content []).2 = none) :
    Unmarshal.decode env content FormatJSON =
      ⟨.returned (.map (env.jsonDecode .mapping content []).1, none),
        [.jsonUnmarshal content .mapping]⟩ := by
  simp [Unmarshal.decode, FormatJSON, json.Unmarshal, h, Run.ret]

theorem Unmarshal.decode_json_final {τ : Type} (env : Env τ) (content : String) (e : Error)
    (h : (env.jsonDecode .mapping content []).2 = some e)
    (hk : ∀ t s f, e ≠ .jsonUnmarshalType "array" t 1 s f) :
    Unmarshal.decode env content FormatJSON =
      ⟨.returned (.null, some (.wrapError ("error unmarshalling from JSON: " ++ e.text) e)),
        [.jsonUnmarshal content .mapping]⟩ := by
  simp only [Unmarshal.decode, FormatJSON, json.Unmarshal, Run.bind_eq, Run.pure_eq,
    Run.mk_returned_andThen, h]
  cases e <;> simp [fmt.Errorfw, Run.ret]
  rename_i v t o s f
  have hg : ¬ (v = "array" ∧ o = 1) := fun hvo =>
    hk t s f (by rw [hvo.1, hvo.2])
  simp [hg]

theorem Unmarshal.decode_json_retry {τ : Type} (env : Env τ) (content : String)
    (t s f : String)
    (h : (env.jsonDecode .mapping content []).2 = some (.jsonUnmarshalType "array" t 1 s f)) :
    Unmarshal.decode env content FormatJSON =
      ⟨.returned (match (env.yamlDecode .sequence content []).2 with
          | some e => (.null, some (.wrapError ("error unmarshalling from JSON: " ++ e.text) e))
          | none => (.seq (env.yamlDecode .sequence content []).1, none)),
        [.jsonUnmarshal content .mapping, .yamlUnmarshal content .sequence]⟩ := by
  simp only [Unmarshal.decode, FormatJSON, json.Unmarshal, Run.bind_eq, Run.pure_eq,
    Run.mk_returned_andThen, h, yaml.Unmarshal]
  cases h2 : (env.yamlDecode .sequence content []).2 <;> simp [fmt.Errorfw, Run.ret, h2]

theorem Unmarshal.rangeErrors_eq {τ : Type} (env : Env τ) (content : String) (err : Error)
    (Errors : List String) (l : List String) :
    Unmarshal.rangeErrors env content err Errors l =
      if l.any (fun e =>
          strings.HasSuffix e "cannot unmarshal !!seq into map[string]interface {}") then
        ⟨.returned (match (env.yamlDecode .sequence content []).2 with
          | some e => (.null, some (.wrapError ("error unmarshalling from YAML: " ++ e.text) e))
          | none => (.seq (env.yamlDecode .sequence content []).1, none)),
          [.yamlUnmarshal content .sequence]⟩
      else
        ⟨.returned (.null, some (.errorString
          ("error: " ++ err.text ++ ", " ++ fmt.stringSlice Errors))), []⟩ := by
  induction l with
  | nil => simp [Unmarshal.rangeErrors, Run.ret]
  | cons e rest ih =>
      unfold Unmarshal.rangeErrors
      by_cases he :
          strings.HasSuffix e "cannot unmarshal !!seq into map[string]interface {}" = true
      · simp only [he, if_true, List.any_cons, Bool.true_or, Run.bind_eq, Run.pure_eq,
          yaml.Unmarshal, Run.mk_returned_andThen]
        cases h2 : (env.yamlDecode .sequence content []).2 <;> simp [fmt.Errorfw, Run.ret, h2]
      · simp only [he, if_false, List.any_cons, Bool.false_or, ih]
        simp at he
        simp [he]

theorem Unmarshal.decode_yaml_ok {τ : Type} (env : Env τ) (content : String)
    (h : (env.yamlDecode .mapping content []).2 = none) :
    Unmarshal.decode env content FormatYAML =
      ⟨.returned (.map (env.yamlDecode .mapping content []).1, none),
        [.yamlUnmarshal content .mapping]⟩ := by
  simp [Unmarshal.decode, FormatYAML, yaml.Unmarshal, h, Run.ret]

theorem Unmarshal.decode_yaml_retry {τ : Type} (env : Env τ) (content : String) (e : Error)
    (h : (env.yamlDecode .mapping content []).2 = some e) (hk : e.isSeqForMapping = true) :
    Unmarshal.decode env content FormatYAML =
      ⟨.returned (match (env.yamlDecode .sequence content []).2 with
          | some e => (.null, some (.wrapError ("error unmarshalling from YAML: " ++ e.text) e))
          | none => (.seq (env.yamlDecode .sequence content []).1, none)),
        [.yamlUnmarshal content .mapping, .yamlUnmarshal content .sequence]⟩ := by
  cases e <;> simp [Error.isSeqForMapping] at hk
  rename_i errs
  have ha : errs.any (fun e =>
      strings.HasSuffix e "cannot unmarshal !!seq into map[string]interface {}") = true := by
    simpa using hk
  simp only [Unmarshal.decode, FormatYAML, Run.bind_eq, yaml.Unmarshal,
    Run.mk_returned_andThen, h, Unmarshal.rangeErrors_eq, ha, if_true]
  simp

theorem Unmarshal.decode_yaml_typeError {τ : Type} (env : Env τ) (content : String)
    (errs : List String)
    (h : (env.yamlDecode .mapping content []).2 = some (.yamlType errs))
    (hk : (Error.yamlType errs).isSeqForMapping = false) :
    Unmarshal.decode env content FormatYAML =
      ⟨.returned (.null, some (.errorString
          ("error: " ++ (Error.yamlType errs).text ++ ", " ++ fmt.stringSlice errs))),
        [.yamlUnmarshal content .mapping]⟩ := by
  have ha : errs.any (fun e =>
      strings.HasSuffix e "cannot unmarshal !!seq into map[string]interface {}") = false := by
    simpa [Error.isSeqForMapping] using hk
  simp only [Unmarshal.decode, FormatYAML, Run.bind_eq, yaml.Unmarshal,
    Run.mk_returned_andThen, h, Unmarshal.rangeErrors_eq, ha]
  simp

theorem Unmarshal.decode_yaml_other {τ : Type} (env : Env τ) (content : String) (e : Error)
    (h : (env.yamlDecode .mapping content []).2 = some e)
    (hk : ∀ errs, e ≠ .yamlType errs) :
    Unmarshal.decode env content FormatYAML =
      ⟨.returned (.null, some (.wrapError
          ("error unmarshalling from YAML: " ++ e.text ++ (" (" ++ e.typeName ++ ")")) e)),
        [.yamlUnmarshal content .mapping]⟩ := by
  simp only [Unmarshal.decode, FormatYAML, Run.bind_eq, yaml.Unmarshal,
    Run.mk_returned_andThen, h]
  cases e
  case yamlType errs => exact absurd rfl (hk errs)
  all_goals simp [fmt.Errorfw, Run.ret]

/-! ## The JSON branch -/

/-- C2: the file `spaced.json` holds a line break and then the JSON array
`["one","two","three"]`.  The JSON decoder reports the array at offset 2, the
test `err.Offset == 1` fails, and `Unmarshal` returns the error of the first
attempt without trying a sequence; the same text given inline is trimmed
first and yields the sequence. -/
theorem Unmarshal_spaced_array_file :
    sample.readFile "spaced.json" = .ok ("\n" ++ arrayJSON)
    ∧ Unmarshal sample "@spaced.json" = ⟨.returned (.null, some (.wrapError
          ("error unmarshalling from JSON: "
            ++ "json: cannot unmarshal array into Go value of type map[string]interface {}")
          (.jsonUnmarshalType "array" "map[string]interface {}" 2 "" ""))),
        [.Stat "spaced.json", .ReadFile "spaced.json",
          .jsonUnmarshal ("\n" ++ arrayJSON) .mapping]⟩
    ∧ Unmarshal sample ("\n" ++ arrayJSON) =
        ⟨.returned (.seq [.str "one", .str "two", .str "three"], none),
          [.jsonUnmarshal arrayJSON .mapping, .yamlUnmarshal arrayJSON .sequence]⟩ :=
  ⟨rfl, rfl, rfl⟩

/-- C3: on the inline text `[23]` the second attempt of `Unmarshal` is a call
to the YAML decoder, and the sequence returned holds the integer 23; the JSON
decoder, which `UnmarshalInto` calls for the same input and a `[]interface{}`
target, gives the `float64` 23. -/
theorem Unmarshal_retry_is_yaml :
    Unmarshal sample numbersJSON =
        ⟨.returned (.seq [.int 23], none),
          [.jsonUnmarshal numbersJSON .mapping, .yamlUnmarshal numbersJSON .sequence]⟩
    ∧ UnmarshalInto sample numbersJSON .sequence [] =
        ⟨.returned ([.float64 float23], none), [.jsonUnmarshal numbersJSON .sequence]⟩
    ∧ (sample.jsonDecode .sequence numbersJSON []).1 = [.float64 float23] :=
  ⟨rfl, rfl, rfl⟩

/-- C4: in the JSON format, when the first decode fails with anything but a
type error that reports an array (a syntax error in particular), `Unmarshal`
calls no decoder again and returns a nil value with the error
"error unmarshalling from JSON: ..." wrapping the error of that decode. -/
theorem Unmarshal_json_failure_is_final {τ : Type} (env : Env τ) (value content : String)
    (t : List Event) (e : Error)
    (hc : Unmarshal.classify env value = ⟨.returned (.ok content FormatJSON), t⟩)
    (he : (env.jsonDecode .mapping content []).2 = some e)
    (hk : e.isArrayMismatch = false) :
    Unmarshal env value = ⟨.returned (.null,
        some (.wrapError ("error unmarshalling from JSON: " ++ e.text) e)),
      t ++ [.jsonUnmarshal content .mapping]⟩
    ∧ ∀ msg offset, (Error.jsonSyntax msg offset).isArrayMismatch = false := by
  refine ⟨?_, fun _ _ => rfl⟩
  rw [Unmarshal.of_classified env value content FormatJSON t hc,
    Unmarshal.decode_json_final env content e he]
  intro ty s f hEq
  rw [hEq] at hk
  simp [Error.isArrayMismatch] at hk

/-- C4 at the inline text `{"a": }`. -/
theorem Unmarshal_json_failure_is_final_witness :
    Unmarshal sample missingValueJSON = ⟨.returned (.null,
        some (.wrapError ("error unmarshalling from JSON: "
            ++ "invalid character '\x7d' looking for beginning of value")
          (.jsonSyntax "invalid character '\x7d' looking for beginning of value" 7))),
      [.jsonUnmarshal missingValueJSON .mapping]⟩ :=
  (Unmarshal_json_failure_is_final sample missingValueJSON missingValueJSON []
    (.jsonSyntax "invalid character '\x7d' looking for beginning of value" 7) rfl rfl rfl).1

/-- C6: in the JSON format, when the JSON decoder decodes the content into a
string-keyed mapping, `Unmarshal` returns that mapping and no error, having
called the decoder once. -/
theorem Unmarshal_json_object {τ : Type} (env : Env τ) (value content : String)
    (t : List Event)
    (hc : Unmarshal.classify env value = ⟨.returned (.ok content FormatJSON), t⟩)
    (hd : (env.jsonDecode .mapping content []).2 = none) :
    Unmarshal env value =
      ⟨.returned (.map (env.jsonDecode .mapping content []).1, none),
        t ++ [.jsonUnmarshal content .mapping]⟩ := by
  rw [Unmarshal.of_classified env value content FormatJSON t hc,
    Unmarshal.decode_json_ok env content hd]

/-- C6 at the inline text `{"name":"John","surname":"Doe","age":23}` and at
the file `struct.json` that holds it. -/
theorem Unmarshal_json_object_witness :
    Unmarshal sample structJSON =
      ⟨.returned (.map [("name", .str "John"), ("surname", .str "Doe"),
          ("age", .float64 float23)], none),
        [.jsonUnmarshal structJSON .mapping]⟩
    ∧ Unmarshal sample "@struct.json" =
      ⟨.returned (.map [("name", .str "John"), ("surname", .str "Doe"),
          ("age", .float64 float23)], none),
        [.Stat "struct.json", .ReadFile "struct.json",
          .jsonUnmarshal structJSON .mapping]⟩ :=
  ⟨Unmarshal_json_object sample structJSON structJSON [] rfl rfl,
    Unmarshal_json_object sample "@struct.json" structJSON
      [.Stat "struct.json", .ReadFile "struct.json"] rfl rfl⟩

/-! ## Lower case -/

theorem unicode.ToLower_of_toLower_le (f : Char → Char) (c : Char)
    (h : c.toLower.toNat ≤ 127) : unicode.ToLower f c = c.toLower := by
  unfold unicode.ToLower
  unfold Char.toLower at h ⊢
  have e1 : (c.val ≤ 0x7F) ↔ c.toNat ≤ 127 := by
    rw [UInt32.le_def]; rfl
  have e2 : ('A' ≤ c) ↔ 65 ≤ c.toNat := by
    rw [Char.le_def, UInt32.le_def]; rfl
  have e3 : (c ≤ 'Z') ↔ c.toNat ≤ 90 := by
    rw [Char.le_def, UInt32.le_def]; rfl
  simp only [e1, e2, e3, ge_iff_le] at *
  by_cases hu : 65 ≤ c.toNat ∧ c.toNat ≤ 90
  · have h1 : c.toNat ≤ 127 := by omega
    simp only [hu, h1, and_self, if_true]
    rfl
  · simp only [hu, if_false] at h ⊢
    simp [h]

theorem strings.ToLower_of_fold (f : Char → Char) (s t : String)
    (h : s.data.map Char.toLower = t.data) (ht : ∀ c ∈ t.data, c.toNat ≤ 127) :
    strings.ToLower f s = t := by
  unfold strings.ToLower
  have hm : s.data.map (unicode.ToLower f) = s.data.map Char.toLower := by
    apply List.map_congr_left
    intro c hc
    apply unicode.ToLower_of_toLower_le
    apply ht
    rw [← h]
    exact List.mem_map_of_mem _ hc
  rw [hm, h]

/-! ## File references: the claims -/

/-- C7: in the sample world `os.Stat` fails on `locked/secret.json` with
"permission denied", which is not a does-not-exist error; `Unmarshal` and
`UnmarshalInto` go on to call `IsDir` on the nil file information and
panic. -/
theorem Unmarshal_stat_failure_panics :
    sample.stat "locked/secret.json"
      = .error (.os "stat locked/secret.json: permission denied" false)
    ∧ Unmarshal sample "@locked/secret.json" = ⟨.panicked, [.Stat "locked/secret.json"]⟩
    ∧ UnmarshalInto sample "@locked/secret.json" .typed ⟨"", "", 0⟩
        = ⟨.panicked, [.Stat "locked/secret.json"]⟩ :=
  ⟨rfl, rfl, rfl⟩

/-- C8: for the input '@' followed by a path, when `os.Stat` reports that the
path does not exist both functions return "file '<path>' does not exist: ..."
wrapping that report, and when the path is a directory they return
"'<path>' is a directory, not a file"; in both cases `os.Stat` is the only call
made. -/
theorem Unmarshal_missing_or_directory {τ : Type} (env : Env τ) (p : String) (s : Shape)
    (target : Target τ s) :
    (∀ e, env.stat p = .error e → os.IsNotExist (some e) = true →
      Unmarshal env ("@" ++ p) = ⟨.returned (.null,
          some (.wrapError ("file '" ++ p ++ "' does not exist: " ++ e.text) e)), [.Stat p]⟩
      ∧ UnmarshalInto env ("@" ++ p) s target = ⟨.returned (target,
          some (.wrapError ("file '" ++ p ++ "' does not exist: " ++ e.text) e)), [.Stat p]⟩)
    ∧ (∀ info, env.stat p = .ok info → info.isDir = true →
      Unmarshal env ("@" ++ p) = ⟨.returned (.null,
          some (.errorString ("'" ++ p ++ "' is a directory, not a file"))), [.Stat p]⟩
      ∧ UnmarshalInto env ("@" ++ p) s target = ⟨.returned (target,
          some (.errorString ("'" ++ p ++ "' is a directory, not a file"))), [.Stat p]⟩) := by
  refine ⟨fun e hs hn => ?_, fun info hs hd => ?_⟩
  · have hc := Unmarshal.classify_notExist env p e hs hn
    exact ⟨Unmarshal.of_failed env _ _ _ hc, UnmarshalInto.into_of_failed env _ _ _ s target hc⟩
  · have hc := Unmarshal.classify_dir env p info hs hd
    exact ⟨Unmarshal.of_failed env _ _ _ hc, UnmarshalInto.into_of_failed env _ _ _ s target hc⟩

/-- C8 at `@missing.json` and at the directory `@adir`. -/
theorem Unmarshal_missing_or_directory_witness :
    Unmarshal sample "@missing.json" = ⟨.returned (.null, some (.wrapError
        "file 'missing.json' does not exist: stat missing.json: no such file or directory"
        (.os "stat missing.json: no such file or directory" true))),
      [.Stat "missing.json"]⟩
    ∧ UnmarshalInto sample "@adir" .typed ⟨"", "", 0⟩ = ⟨.returned (⟨"", "", 0⟩,
        some (.errorString "'adir' is a directory, not a file")), [.Stat "adir"]⟩ :=
  ⟨((Unmarshal_missing_or_directory sample "missing.json" .typed ⟨"", "", 0⟩).1
      (.os "stat missing.json: no such file or directory" true) rfl rfl).1,
    ((Unmarshal_missing_or_directory sample "adir" .typed ⟨"", "", 0⟩).2
      ⟨true⟩ rfl rfl).2⟩

/-- C9: for '@' followed by the path of a file that exists, is not a directory
and can be read, the lower-cased extension of the path decides: ".yaml" and
".yml" give YAML, ".json" gives JSON, and the decoder is called on the bytes
read; any other extension gives "unsupported data format in file: " followed
by the extension as written.  Extensions that differ from one of the three
only in the case of ASCII letters lower-case to it. -/
theorem Unmarshal_file_format {τ : Type} (env : Env τ) (p content : String)
    (info : FileInfo)
    (hs : env.stat p = .ok info) (hd : info.isDir = false)
    (hr : env.readFile p = .ok content) :
    ((strings.ToLower env.toLowerNonASCII (path.Ext p) = ".yaml"
        ∨ strings.ToLower env.toLowerNonASCII (path.Ext p) = ".yml") →
      Unmarshal env ("@" ++ p) = ⟨(Unmarshal.decode env content FormatYAML).outcome,
          [.Stat p, .ReadFile p] ++ (Unmarshal.decode env content FormatYAML).trace⟩
      ∧ ((Unmarshal env ("@" ++ p)).trace.drop 2).head?
          = some (.yamlUnmarshal content .mapping))
    ∧ (strings.ToLower env.toLowerNonASCII (path.Ext p) = ".json" →
      Unmarshal env ("@" ++ p) = ⟨(Unmarshal.decode env content FormatJSON).outcome,
          [.Stat p, .ReadFile p] ++ (Unmarshal.decode env content FormatJSON).trace⟩
      ∧ ((Unmarshal env ("@" ++ p)).trace.drop 2).head?
          = some (.jsonUnmarshal content .mapping))
    ∧ (strings.ToLower env.toLowerNonASCII (path.Ext p) ≠ ".yaml" →
      strings.ToLower env.toLowerNonASCII (path.Ext p) ≠ ".yml" →
      strings.ToLower env.toLowerNonASCII (path.Ext p) ≠ ".json" →
      Unmarshal env ("@" ++ p) = ⟨.returned (.null, some (.errorString
          ("unsupported data format in file: " ++ path.Ext p))), [.Stat p, .ReadFile p]⟩)
    ∧ (∀ ext : String, ext = ".yaml" ∨ ext = ".yml" ∨ ext = ".json" →
      (path.Ext p).data.map Char.toLower = ext.data →
      strings.ToLower env.toLowerNonASCII (path.Ext p) = ext) := by
  have hc := Unmarshal.classify_file env p info content hs hd hr
  refine ⟨fun hy => ?_, fun hj => ?_, fun h1 h2 h3 => ?_, fun ext hext hfold => ?_⟩
  · rw [if_pos hy] at hc
    have e := Unmarshal.of_classified env _ _ _ _ hc
    refine ⟨e, ?_⟩
    rw [e]
    simpa using Unmarshal.decode_yaml_head env content
  · have hny : ¬ (strings.ToLower env.toLowerNonASCII (path.Ext p) = ".yaml"
        ∨ strings.ToLower env.toLowerNonASCII (path.Ext p) = ".yml") := by
      rw [hj]; decide
    rw [if_neg hny, if_pos hj] at hc
    have e := Unmarshal.of_classified env _ _ _ _ hc
    refine ⟨e, ?_⟩
    rw [e]
    simpa using Unmarshal.decode_json_head env content
  · rw [if_neg (by rintro (h | h) <;> contradiction), if_neg h3] at hc
    exact Unmarshal.of_failed env _ _ _ hc
  · apply strings.ToLower_of_fold _ _ _ hfold
    rcases hext with h | h | h <;> subst h <;> decide

/-- C9 at `@numbers.JSON`, whose extension is in upper case, at `@array.yml`
and at `@data.toml`. -/
theorem Unmarshal_file_format_witness :
    Unmarshal sample "@numbers.JSON" = ⟨.returned (.seq [.int 23], none),
      [.Stat "numbers.JSON", .ReadFile "numbers.JSON",
        .jsonUnmarshal numbersJSON .mapping, .yamlUnmarshal numbersJSON .sequence]⟩
    ∧ Unmarshal sample "@array.yml" =
      ⟨.returned (.seq [.str "one", .str "two", .str "three"], none),
        [.Stat "array.yml", .ReadFile "array.yml",
          .yamlUnmarshal arrayYAML .mapping, .yamlUnmarshal arrayYAML .sequence]⟩
    ∧ Unmarshal sample "@data.toml" = ⟨.returned (.null,
        some (.errorString "unsupported data format in file: .toml")),
      [.Stat "data.toml", .ReadFile "data.toml"]⟩
    ∧ strings.ToLower sample.toLowerNonASCII (path.Ext "numbers.JSON") = ".json" :=
  ⟨((Unmarshal_file_format sample "numbers.JSON" numbersJSON ⟨false⟩ rfl rfl rfl).2.1
      (by decide)).1,
    ((Unmarshal_file_format sample "array.yml" arrayYAML ⟨false⟩ rfl rfl rfl).1
      (Or.inr (by decide))).1,
    (Unmarshal_file_format sample "data.toml" "answer = 42\n" ⟨false⟩ rfl rfl rfl).2.2.1
      (by decide) (by decide) (by decide),
    (Unmarshal_file_format sample "numbers.JSON" numbersJSON ⟨false⟩ rfl rfl rfl).2.2.2
      ".json" (Or.inr (Or.inr rfl)) (by decide)⟩

/-- C10, as stated, fails: `missing.toml` has the extension ".toml" and does
not exist in the sample world, and both functions return the does-not-exist
error, not the unsupported-extension error. -/
theorem Unmarshal_missing_toml :
    path.Ext "missing.toml" = ".toml"
    ∧ Unmarshal sample "@missing.toml" = ⟨.returned (.null, some (.wrapError
        "file 'missing.toml' does not exist: stat missing.toml: no such file or directory"
        (.os "stat missing.toml: no such file or directory" true))),
      [.Stat "missing.toml"]⟩
    ∧ UnmarshalInto sample "@missing.toml" .typed ⟨"", "", 0⟩ = ⟨.returned (⟨"", "", 0⟩,
        some (.wrapError
          "file 'missing.toml' does not exist: stat missing.toml: no such file or directory"
          (.os "stat missing.toml: no such file or directory" true))),
      [.Stat "missing.toml"]⟩
    ∧ ¬ (∃ v e, (Unmarshal sample "@missing.toml").outcome = .returned (v, some e)
        ∧ e.text = "unsupported data format in file: " ++ path.Ext "missing.toml") := by
  refine ⟨rfl, rfl, rfl, ?_⟩
  rintro ⟨v, e, h, ht⟩
  have hu : (Unmarshal sample "@missing.toml").outcome = .returned (.null, some (.wrapError
      "file 'missing.toml' does not exist: stat missing.toml: no such file or directory"
      (.os "stat missing.toml: no such file or directory" true))) := rfl
  rw [hu] at h
  injection h with h
  injection h with _ h
  injection h with h
  subst h
  revert ht
  decide

/-- C10, amended: when the path after '@' exists, is not a directory and can
be read, and its lower-cased extension is none of ".json", ".yaml", ".yml",
both functions return "unsupported data format in file: " followed by the
extension. -/
theorem Unmarshal_unsupported_extension {τ : Type} (env : Env τ) (p content : String)
    (info : FileInfo) (s : Shape) (target : Target τ s)
    (hs : env.stat p = .ok info) (hd : info.isDir = false)
    (hr : env.readFile p = .ok content)
    (h1 : strings.ToLower env.toLowerNonASCII (path.Ext p) ≠ ".json")
    (h2 : strings.ToLower env.toLowerNonASCII (path.Ext p) ≠ ".yaml")
    (h3 : strings.ToLower env.toLowerNonASCII (path.Ext p) ≠ ".yml") :
    Unmarshal env ("@" ++ p) = ⟨.returned (.null, some (.errorString
        ("unsupported data format in file: " ++ path.Ext p))), [.Stat p, .ReadFile p]⟩
    ∧ UnmarshalInto env ("@" ++ p) s target = ⟨.returned (target, some (.errorString
        ("unsupported data format in file: " ++ path.Ext p))), [.Stat p, .ReadFile p]⟩ := by
  have hc := Unmarshal.classify_file env p info content hs hd hr
  rw [if_neg (by rintro (h | h) <;> contradiction), if_neg h1] at hc
  exact ⟨Unmarshal.of_failed env _ _ _ hc, UnmarshalInto.into_of_failed env _ _ _ s target hc⟩

/-- C10, amended, at `@data.toml`. -/
theorem Unmarshal_unsupported_extension_witness :
    Unmarshal sample "@data.toml" = ⟨.returned (.null,
        some (.errorString "unsupported data format in file: .toml")),
      [.Stat "data.toml", .ReadFile "data.toml"]⟩
    ∧ UnmarshalInto sample "@data.toml" .typed ⟨"", "", 0⟩ = ⟨.returned (⟨"", "", 0⟩,
        some (.errorString "unsupported data format in file: .toml")),
      [.Stat "data.toml", .ReadFile "data.toml"]⟩ :=
  Unmarshal_unsupported_extension sample "data.toml" "answer = 42\n" ⟨false⟩ .typed
    ⟨"", "", 0⟩ rfl rfl rfl (by decide) (by decide) (by decide)

/-! ## The YAML branch -/

/-- C5: in the YAML format `Unmarshal` first decodes into a mapping and returns
it when that succeeds.  When it fails, the sequence decode is attempted exactly
when the failure is a type error with a sub-error "... cannot unmarshal !!seq
into map[string]interface {}", and its sequence is returned when it succeeds.
Any other failure ends the call with a nil value: a type error gives an error
whose message holds the message of the type error and its sub-errors, any
other error is wrapped. -/
theorem Unmarshal_yaml_strategy {τ : Type} (env : Env τ) (value content : String)
    (t : List Event)
    (hc : Unmarshal.classify env value = ⟨.returned (.ok content FormatYAML), t⟩) :
    ((env.yamlDecode .mapping content []).2 = none →
      Unmarshal env value = ⟨.returned (.map (env.yamlDecode .mapping content []).1, none),
        t ++ [.yamlUnmarshal content .mapping]⟩)
    ∧ (∀ e, (env.yamlDecode .mapping content []).2 = some e →
      ((Unmarshal env value).trace
          = t ++ [.yamlUnmarshal content .mapping, .yamlUnmarshal content .sequence]
        ↔ e.isSeqForMapping = true)
      ∧ (e.isSeqForMapping = true → (env.yamlDecode .sequence content []).2 = none →
        Unmarshal env value = ⟨.returned (.seq (env.yamlDecode .sequence content []).1, none),
          t ++ [.yamlUnmarshal content .mapping, .yamlUnmarshal content .sequence]⟩)
      ∧ (e.isSeqForMapping = false → ∀ errs, e = .yamlType errs →
        Unmarshal env value = ⟨.returned (.null, some (.errorString
            ("error: " ++ e.text ++ ", " ++ fmt.stringSlice errs))),
          t ++ [.yamlUnmarshal content .mapping]⟩)
      ∧ ((∀ errs, e ≠ .yamlType errs) →
        Unmarshal env value = ⟨.returned (.null, some (.wrapError
            ("error unmarshalling from YAML: " ++ e.text ++ (" (" ++ e.typeName ++ ")")) e)),
          t ++ [.yamlUnmarshal content .mapping]⟩)) := by
  have hu := Unmarshal.of_classified env value content FormatYAML t hc
  refine ⟨fun hok => ?_, fun e he => ⟨?_, fun hk h2 => ?_, fun hk errs hty => ?_, fun hk => ?_⟩⟩
  · rw [hu, Unmarshal.decode_yaml_ok env content hok]
  · constructor
    · intro htr
      by_contra hk
      have hk : e.isSeqForMapping = false := by simpa using hk
      rw [hu] at htr
      have hlen := congrArg List.length htr
      by_cases hty : ∃ errs, e = .yamlType errs
      · obtain ⟨errs, rfl⟩ := hty
        rw [Unmarshal.decode_yaml_typeError env content errs he hk] at hlen
        simp at hlen
      · rw [Unmarshal.decode_yaml_other env content e he (fun errs h => hty ⟨errs, h⟩)] at hlen
        simp at hlen
    · intro hk
      rw [hu, Unmarshal.decode_yaml_retry env content e he hk]
  · rw [hu, Unmarshal.decode_yaml_retry env content e he hk, h2]
  · subst hty
    rw [hu, Unmarshal.decode_yaml_typeError env content errs he hk]
  · rw [hu, Unmarshal.decode_yaml_other env content e he hk]

/-- C5 at the inline documents `arrayYAML` (a sequence), `structYAML` (a
mapping) and `scalarYAML` (a scalar). -/
theorem Unmarshal_yaml_strategy_witness :
    Unmarshal sample arrayYAML = ⟨.returned (.seq [.str "one", .str "two", .str "three"], none),
      [.yamlUnmarshal arrayYAML .mapping, .yamlUnmarshal arrayYAML .sequence]⟩
    ∧ Unmarshal sample structYAML = ⟨.returned
        (.map [("name", .str "John"), ("surname", .str "Doe"), ("age", .int 23)], none),
      [.yamlUnmarshal structYAML .mapping]⟩
    ∧ (Unmarshal sample scalarYAML).trace = [.yamlUnmarshal scalarYAML .mapping] :=
  ⟨((Unmarshal_yaml_strategy sample arrayYAML arrayYAML [] rfl).2
      (.yamlType ["line 2: cannot unmarshal !!seq into map[string]interface {}"]) rfl).2.1
      (by decide) rfl,
    (Unmarshal_yaml_strategy sample structYAML structYAML [] rfl).1 rfl,
    congrArg Run.trace
      (((Unmarshal_yaml_strategy sample scalarYAML scalarYAML [] rfl).2
        (.yamlType ["line 1: cannot unmarshal !!int \x6042\x60 into map[string]interface {}"])
        rfl).2.2.1 (by decide) _ rfl)⟩

/-! ## Every way a classification can end -/

theorem strings.eq_at_append (value : String) (h : strings.HasPrefix value "@" = true) :
    value = "@" ++ strings.TrimPrefix value "@" := by
  obtain ⟨l⟩ := value
  cases l with
  | nil => simp [strings.HasPrefix] at h
  | cons c rest =>
      have hc : '@' = c := by
        simpa [strings.HasPrefix, List.isPrefixOf] using h
      subst hc
      have e : (⟨'@' :: rest⟩ : String) = "@" ++ (⟨rest⟩ : String) := by
        apply String.ext
        simp [String.data_append]
      rw [e, strings.TrimPrefix_at]

theorem Unmarshal.classify_cases {τ : Type} (env : Env τ) (value : String) :
    ∃ t, t.filter Event.isDecode = [] ∧
      ((Unmarshal.classify env value = ⟨.panicked, t⟩
          ∧ strings.HasPrefix value "@" = true
          ∧ ∃ e, env.stat (strings.TrimPrefix value "@") = .error e
            ∧ os.IsNotExist (some e) = false)
        ∨ (∃ err, Unmarshal.classify env value = ⟨.returned (.fail err), t⟩)
        ∨ (∃ c, Unmarshal.classify env value = ⟨.returned (.ok c FormatJSON), t⟩)
        ∨ (∃ c, Unmarshal.classify env value = ⟨.returned (.ok c FormatYAML), t⟩)) := by
  by_cases h : strings.HasPrefix value "@" = true
  · have hv := strings.eq_at_append value h
    generalize strings.TrimPrefix value "@" = p at hv
    subst hv
    cases hs : env.stat p with
    | error e =>
        cases hn : os.IsNotExist (some e) with
        | true =>
            exact ⟨[.Stat p], rfl, Or.inr (Or.inl ⟨_, Unmarshal.classify_notExist env p e hs hn⟩)⟩
        | false =>
            exact ⟨[.Stat p], rfl,
              Or.inl ⟨Unmarshal.classify_statError env p e hs hn, h, e, rfl, hn⟩⟩
    | ok info =>
        cases hd : info.isDir with
        | true =>
            exact ⟨[.Stat p], rfl, Or.inr (Or.inl ⟨_, Unmarshal.classify_dir env p info hs hd⟩)⟩
        | false =>
            cases hr : env.readFile p with
            | error e =>
                exact ⟨[.Stat p, .ReadFile p], rfl,
                  Or.inr (Or.inl ⟨_, Unmarshal.classify_readError env p info e hs hd hr⟩)⟩
            | ok content =>
                have hc := Unmarshal.classify_file env p info content hs hd hr
                refine ⟨[.Stat p, .ReadFile p], rfl, Or.inr ?_⟩
                split at hc
                · exact Or.inr (Or.inr ⟨_, hc⟩)
                · split at hc
                  · exact Or.inr (Or.inl ⟨_, hc⟩)
                  · exact Or.inl ⟨_, hc⟩
  · have h : strings.HasPrefix value "@" = false := by simpa using h
    have hc := Unmarshal.classify_inline env value h
    refine ⟨[], rfl, Or.inr ?_⟩
    split at hc
    · exact Or.inr (Or.inr ⟨_, hc⟩)
    · split at hc
      · exact Or.inr (Or.inl ⟨_, hc⟩)
      · exact Or.inl ⟨_, hc⟩

/-! ## Every way a decode can end -/

theorem Unmarshal.decode_other {τ : Type} (env : Env τ) (content : String) (n : Nat) :
    Unmarshal.decode env content (n + 2) = ⟨.returned (.null,
      some (.errorString ("unsupported encoding: " ++ toString (n + 2)))), []⟩ := rfl

/-- What the JSON branch of `Unmarshal` does, by the result of the first
attempt. -/
theorem Unmarshal.decode_json_cases {τ : Type} (env : Env τ) (content : String) :
    (∃ v err, Unmarshal.decode env content FormatJSON
          = ⟨.returned (v, err), [.jsonUnmarshal content .mapping]⟩
        ∧ (err ≠ none → v = .null)
        ∧ (err = none → (∃ m, v = .map m) ∨ (∃ a, v = .seq a)))
    ∨ (∃ v err, Unmarshal.decode env content FormatJSON
          = ⟨.returned (v, err),
              [.jsonUnmarshal content .mapping, .yamlUnmarshal content .sequence]⟩
        ∧ (err ≠ none → v = .null)
        ∧ (err = none → (∃ m, v = .map m) ∨ (∃ a, v = .seq a))
        ∧ ∃ e, (env.jsonDecode .mapping content []).2 = some e
            ∧ e.isArrayMismatch = true) := by
  cases he : (env.jsonDecode .mapping content []).2 with
  | none =>
      exact Or.inl ⟨_, _, Unmarshal.decode_json_ok env content he,
        fun h => absurd rfl h, fun _ => Or.inl ⟨_, rfl⟩⟩
  | some e =>
      by_cases hg : ∃ t s f, e = .jsonUnmarshalType "array" t 1 s f
      · obtain ⟨t, s, f, rfl⟩ := hg
        refine Or.inr ?_
        have hd := Unmarshal.decode_json_retry env content t s f he
        cases h2 : (env.yamlDecode .sequence content []).2 with
        | none =>
            rw [h2] at hd
            exact ⟨_, _, hd, fun h => absurd rfl h, fun _ => Or.inr ⟨_, rfl⟩, _, rfl, rfl⟩
        | some e2 =>
            rw [h2] at hd
            exact ⟨_, _, hd, fun _ => rfl, (fun h => by cases h), _, rfl, rfl⟩
      · refine Or.inl ⟨_, _, Unmarshal.decode_json_final env content e he
          (fun t s f h => hg ⟨t, s, f, h⟩), fun _ => rfl, fun h => by cases h⟩

/-- What the YAML branch of `Unmarshal` does, by the result of the first
attempt. -/
theorem Unmarshal.decode_yaml_cases {τ : Type} (env : Env τ) (content : String) :
    (∃ v err, Unmarshal.decode env content FormatYAML
          = ⟨.returned (v, err), [.yamlUnmarshal content .mapping]⟩
        ∧ (err ≠ none → v = .null)
        ∧ (err = none → (∃ m, v = .map m) ∨ (∃ a, v = .seq a)))
    ∨ (∃ v err, Unmarshal.decode env content FormatYAML
          = ⟨.returned (v, err),
              [.yamlUnmarshal content .mapping, .yamlUnmarshal content .sequence]⟩
        ∧ (err ≠ none → v = .null)
        ∧ (err = none → (∃ m, v = .map m) ∨ (∃ a, v = .seq a))
        ∧ ∃ e, (env.yamlDecode .mapping content []).2 = some e
            ∧ e.isSeqForMapping = true) := by
  cases he : (env.yamlDecode .mapping content []).2 with
  | none =>
      exact Or.inl ⟨_, _, Unmarshal.decode_yaml_ok env content he,
        fun h => absurd rfl h, fun _ => Or.inl ⟨_, rfl⟩⟩
  | some e =>
      cases hk : e.isSeqForMapping with
      | true =>
          refine Or.inr ?_
          have hd := Unmarshal.decode_yaml_retry env content e he hk
          cases h2 : (env.yamlDecode .sequence content []).2 with
          | none =>
              rw [h2] at hd
              exact ⟨_, _, hd, fun h => absurd rfl h, fun _ => Or.inr ⟨_, rfl⟩, _, rfl, hk⟩
          | some e2 =>
              rw [h2] at hd
              exact ⟨_, _, hd, fun _ => rfl, (fun h => by cases h), _, rfl, hk⟩
      | false =>
          by_cases hty : ∃ errs, e = .yamlType errs
          · obtain ⟨errs, rfl⟩ := hty
            exact Or.inl ⟨_, _, Unmarshal.decode_yaml_typeError env content errs he hk,
              fun _ => rfl, fun h => by cases h⟩
          · exact Or.inl ⟨_, _, Unmarshal.decode_yaml_other env content e he
              (fun errs h => hty ⟨errs, h⟩), fun _ => rfl, fun h => by cases h⟩

theorem UnmarshalInto.decode_json {τ : Type} (env : Env τ) (content : String) (s : Shape)
    (target : Target τ s) :
    UnmarshalInto.decode env content FormatJSON s target =
      ⟨.returned ((env.jsonDecode s content target).1,
          (env.jsonDecode s content target).2.map
            (fun e => .wrapError ("error unmarshalling from JSON: " ++ e.text) e)),
        [.jsonUnmarshal content s]⟩ := by
  simp only [UnmarshalInto.decode, FormatJSON, json.Unmarshal, Run.bind_eq, Run.pure_eq,
    Run.mk_returned_andThen]
  cases h : (env.jsonDecode s content target).2 <;> simp [fmt.Errorfw, Run.ret, h]

theorem UnmarshalInto.decode_yaml {τ : Type} (env : Env τ) (content : String) (s : Shape)
    (target : Target τ s) :
    UnmarshalInto.decode env content FormatYAML s target =
      ⟨.returned ((env.yamlDecode s content target).1,
          (env.yamlDecode s content target).2.map
            (fun e => .wrapError
              ("error unmarshalling from YAML: " ++ e.text ++ (" (" ++ e.typeName ++ ")")) e)),
        [.yamlUnmarshal content s]⟩ := by
  simp only [UnmarshalInto.decode, FormatYAML, yaml.Unmarshal, Run.bind_eq, Run.pure_eq,
    Run.mk_returned_andThen]
  cases h : (env.yamlDecode s content target).2 <;> simp [fmt.Errorfw, Run.ret, h]

/-! ## The typed path and the bounds on decoding -/

/-- C11: when the classification of `UnmarshalInto` ends with a content and a
format, the format is JSON or YAML, the decoder of that format is called once
on the content and the caller's target, no other decoder call is made, the
target is left as that decoder leaves it, and the error returned is nil exactly
when the decoder's is; otherwise it wraps the decoder's error in a message that
starts with "error unmarshalling from JSON: " or "error unmarshalling from
YAML: ". -/
theorem UnmarshalInto_decodes_once {τ : Type} (env : Env τ) (value content : String)
    (format : Format) (t : List Event) (s : Shape) (target : Target τ s)
    (hc : UnmarshalInto.classify env value = ⟨.returned (.ok content format), t⟩) :
    (format = FormatJSON ∨ format = FormatYAML)
    ∧ (format = FormatJSON →
      UnmarshalInto env value s target =
        ⟨.returned ((env.jsonDecode s content target).1,
            (env.jsonDecode s content target).2.map
              (fun e => .wrapError ("error unmarshalling from JSON: " ++ e.text) e)),
          t ++ [.jsonUnmarshal content s]⟩
      ∧ ((∃ v, (UnmarshalInto env value s target).outcome = .returned (v, none))
          ↔ (env.jsonDecode s content target).2 = none))
    ∧ (format = FormatYAML →
      UnmarshalInto env value s target =
        ⟨.returned ((env.yamlDecode s content target).1,
            (env.yamlDecode s content target).2.map
              (fun e => .wrapError
                ("error unmarshalling from YAML: " ++ e.text ++ (" (" ++ e.typeName ++ ")"))
                e)),
          t ++ [.yamlUnmarshal content s]⟩
      ∧ ((∃ v, (UnmarshalInto env value s target).outcome = .returned (v, none))
          ↔ (env.yamlDecode s content target).2 = none))
    ∧ ((UnmarshalInto env value s target).trace.filter Event.isDecode).length = 1 := by
  rw [UnmarshalInto.classify_eq] at hc
  have hu := UnmarshalInto.into_of_classified env value content format t s target hc
  have hj : format = FormatJSON →
      UnmarshalInto env value s target =
        ⟨.returned ((env.jsonDecode s content target).1,
            (env.jsonDecode s content target).2.map
              (fun e => .wrapError ("error unmarshalling from JSON: " ++ e.text) e)),
          t ++ [.jsonUnmarshal content s]⟩ := by
    intro hf; subst hf
    rw [hu, UnmarshalInto.decode_json]
  have hy : format = FormatYAML →
      UnmarshalInto env value s target =
        ⟨.returned ((env.yamlDecode s content target).1,
            (env.yamlDecode s content target).2.map
              (fun e => .wrapError
                ("error unmarshalling from YAML: " ++ e.text ++ (" (" ++ e.typeName ++ ")"))
                e)),
          t ++ [.yamlUnmarshal content s]⟩ := by
    intro hf; subst hf
    rw [hu, UnmarshalInto.decode_yaml]
  obtain ⟨t', ht', hcases⟩ := Unmarshal.classify_cases env value
  have hfmt : (format = FormatJSON ∨ format = FormatYAML) ∧ t.filter Event.isDecode = [] := by
    rcases hcases with ⟨h, _⟩ | ⟨err, h⟩ | ⟨c, h⟩ | ⟨c, h⟩
    all_goals
      rw [hc] at h
      simp only [Run.mk.injEq, Outcome.returned.injEq, Classified.ok.injEq, reduceCtorEq,
        false_and, and_false] at h
    · obtain ⟨⟨_, hf⟩, ht⟩ := h
      exact ⟨Or.inl hf, ht ▸ ht'⟩
    · obtain ⟨⟨_, hf⟩, ht⟩ := h
      exact ⟨Or.inr hf, ht ▸ ht'⟩
  refine ⟨hfmt.1, fun hf => ⟨hj hf, ?_⟩, fun hf => ⟨hy hf, ?_⟩, ?_⟩
  · rw [hj hf]
    cases (env.jsonDecode s content target).2 <;> simp
  · rw [hy hf]
    cases (env.yamlDecode s content target).2 <;> simp
  · rcases hfmt.1 with hf | hf
    · rw [hj hf]; simp [hfmt.2, Event.isDecode]
    · rw [hy hf]; simp [hfmt.2, Event.isDecode]

/-- C11 at the record of the tests, at a sequence target and at a document the
JSON decoder rejects. -/
theorem UnmarshalInto_decodes_once_witness :
    UnmarshalInto sample structJSON .typed ⟨"", "", 0⟩ =
      ⟨.returned (⟨"John", "Doe", 23⟩, none), [.jsonUnmarshal structJSON .typed]⟩
    ∧ UnmarshalInto sample "@array.yml" .sequence [] =
      ⟨.returned ([.str "one", .str "two", .str "three"], none),
        [.Stat "array.yml", .ReadFile "array.yml", .yamlUnmarshal arrayYAML .sequence]⟩
    ∧ UnmarshalInto sample missingValueJSON .mapping [] =
      ⟨.returned ([], some (.wrapError
          ("error unmarshalling from JSON: "
            ++ "invalid character '\x7d' looking for beginning of value")
          (.jsonSyntax "invalid character '\x7d' looking for beginning of value" 7))),
        [.jsonUnmarshal missingValueJSON .mapping]⟩ :=
  ⟨((UnmarshalInto_decodes_once sample structJSON structJSON FormatJSON [] .typed
      ⟨"", "", 0⟩ rfl).2.1 rfl).1,
    ((UnmarshalInto_decodes_once sample "@array.yml" arrayYAML FormatYAML
      [.Stat "array.yml", .ReadFile "array.yml"] .sequence [] rfl).2.2.1 rfl).1,
    ((UnmarshalInto_decodes_once sample missingValueJSON missingValueJSON FormatJSON []
      .mapping [] rfl).2.1 rfl).1⟩

/-- C12: among the calls of one `Unmarshal` at most two are decoder calls.  The
first is the mapping attempt.  A second one is the sequence attempt on the same
content, nothing follows it, and it is made only when the mapping attempt
failed with the mismatch signature: a JSON type error reporting an array, or a
YAML type error with a sequence-for-mapping sub-error. -/
theorem Unmarshal_two_attempts {τ : Type} (env : Env τ) (value : String) :
    ((Unmarshal env value).trace.filter Event.isDecode).length ≤ 2
    ∧ (∀ first rest, (Unmarshal env value).trace.filter Event.isDecode = first :: rest →
        ∃ content, first = .jsonUnmarshal content .mapping
          ∨ first = .yamlUnmarshal content .mapping)
    ∧ (∀ first second rest,
        (Unmarshal env value).trace.filter Event.isDecode = first :: second :: rest →
        rest = [] ∧ ∃ content, second = .yamlUnmarshal content .sequence
          ∧ ((first = .jsonUnmarshal content .mapping
                ∧ ∃ e, (env.jsonDecode .mapping content []).2 = some e
                  ∧ e.isArrayMismatch = true)
            ∨ (first = .yamlUnmarshal content .mapping
                ∧ ∃ e, (env.yamlDecode .mapping content []).2 = some e
                  ∧ e.isSeqForMapping = true))) := by
  obtain ⟨t, ht, hcases⟩ := Unmarshal.classify_cases env value
  rcases hcases with ⟨h, _⟩ | ⟨err, h⟩ | ⟨c, h⟩ | ⟨c, h⟩
  · rw [Unmarshal.of_panicked env value t h]
    simp [ht]
  · rw [Unmarshal.of_failed env value err t h]
    simp [ht]
  · rw [Unmarshal.of_classified env value c FormatJSON t h]
    rcases Unmarshal.decode_json_cases env c with ⟨v, err, hd, _⟩ | ⟨v, err, hd, _, _, e, he, hk⟩
    · rw [hd]
      simp [ht, Event.isDecode]
    · rw [hd]
      simp only [List.filter_append, ht, List.nil_append]
      refine ⟨by simp [Event.isDecode], ?_, ?_⟩
      · intro first rest hEq
        simp [Event.isDecode] at hEq
        exact ⟨c, Or.inl hEq.1.symm⟩
      · intro first second rest hEq
        simp [Event.isDecode] at hEq
        obtain ⟨h1, h2, h3⟩ := hEq
        exact ⟨h3, c, h2.symm, Or.inl ⟨h1.symm, e, he, hk⟩⟩
  · rw [Unmarshal.of_classified env value c FormatYAML t h]
    rcases Unmarshal.decode_yaml_cases env c with ⟨v, err, hd, _⟩ | ⟨v, err, hd, _, _, e, he, hk⟩
    · rw [hd]
      simp [ht, Event.isDecode]
    · rw [hd]
      simp only [List.filter_append, ht, List.nil_append]
      refine ⟨by simp [Event.isDecode], ?_, ?_⟩
      · intro first rest hEq
        simp [Event.isDecode] at hEq
        exact ⟨c, Or.inr hEq.1.symm⟩
      · intro first second rest hEq
        simp [Event.isDecode] at hEq
        obtain ⟨h1, h2, h3⟩ := hEq
        exact ⟨h3, c, h2.symm, Or.inr ⟨h1.symm, e, he, hk⟩⟩

/-- C12 at a YAML sequence in the world where the type error lists the
mismatch twice, and at the JSON array `[23]` in the sample world. -/
theorem Unmarshal_two_attempts_witness :
    ((Unmarshal doubled arrayYAML).trace.filter Event.isDecode).length ≤ 2
    ∧ (Unmarshal doubled arrayYAML).trace
        = [.yamlUnmarshal arrayYAML .mapping, .yamlUnmarshal arrayYAML .sequence]
    ∧ (doubled.yamlDecode .mapping arrayYAML []).2 = some (.yamlType
        ["line 2: cannot unmarshal !!seq into map[string]interface {}",
          "line 2: cannot unmarshal !!seq into map[string]interface {}"])
    ∧ ((Unmarshal sample numbersJSON).trace.filter Event.isDecode).length ≤ 2 :=
  ⟨(Unmarshal_two_attempts doubled arrayYAML).1, rfl, rfl,
    (Unmarshal_two_attempts sample numbersJSON).1⟩

/-! ## The two classifications, and the shape of the result -/

/-- C13: the classification of `UnmarshalInto` is that of `Unmarshal`: the same
calls and the same end.  Either both end with the same error, which each
function returns; or both end with the same content and the same format, which
each hands to its decode step; or, where `os.Stat` fails with an error that is
not a does-not-exist error, both stop at the call of `IsDir`. -/
theorem Unmarshal_classification_agrees {τ : Type} (env : Env τ) (value : String)
    (s : Shape) (target : Target τ s) :
    UnmarshalInto.classify env value = Unmarshal.classify env value
    ∧ ((∃ err t, Unmarshal.classify env value = ⟨.returned (.fail err), t⟩
          ∧ UnmarshalInto.classify env value = ⟨.returned (.fail err), t⟩
          ∧ Unmarshal env value = ⟨.returned (.null, some err), t⟩
          ∧ UnmarshalInto env value s target = ⟨.returned (target, some err), t⟩)
      ∨ (∃ content format t,
          Unmarshal.classify env value = ⟨.returned (.ok content format), t⟩
          ∧ UnmarshalInto.classify env value = ⟨.returned (.ok content format), t⟩
          ∧ Unmarshal env value = ⟨(Unmarshal.decode env content format).outcome,
              t ++ (Unmarshal.decode env content format).trace⟩
          ∧ UnmarshalInto env value s target =
              ⟨(UnmarshalInto.decode env content format s target).outcome,
                t ++ (UnmarshalInto.decode env content format s target).trace⟩)
      ∨ (∃ t, Unmarshal.classify env value = ⟨.panicked, t⟩
          ∧ UnmarshalInto.classify env value = ⟨.panicked, t⟩
          ∧ ∃ e, env.stat (strings.TrimPrefix value "@") = .error e
            ∧ os.IsNotExist (some e) = false)) := by
  refine ⟨rfl, ?_⟩
  obtain ⟨t, _, hcases⟩ := Unmarshal.classify_cases env value
  rcases hcases with ⟨h, _, e, hs, hn⟩ | ⟨err, h⟩ | ⟨c, h⟩ | ⟨c, h⟩
  · exact Or.inr (Or.inr ⟨t, h, h, e, hs, hn⟩)
  · exact Or.inl ⟨err, t, h, h, Unmarshal.of_failed env value err t h,
      UnmarshalInto.into_of_failed env value err t s target h⟩
  · exact Or.inr (Or.inl ⟨c, FormatJSON, t, h, h,
      Unmarshal.of_classified env value c FormatJSON t h,
      UnmarshalInto.into_of_classified env value c FormatJSON t s target h⟩)
  · exact Or.inr (Or.inl ⟨c, FormatYAML, t, h, h,
      Unmarshal.of_classified env value c FormatYAML t h,
      UnmarshalInto.into_of_classified env value c FormatYAML t s target h⟩)

/-- C13 at a file with an unsupported extension, at a path `os.Stat` may not
look at, and at an inline YAML document. -/
theorem Unmarshal_classification_agrees_witness :
    UnmarshalInto.classify sample "@data.toml" = Unmarshal.classify sample "@data.toml"
    ∧ UnmarshalInto.classify sample "@locked/secret.json"
        = Unmarshal.classify sample "@locked/secret.json"
    ∧ UnmarshalInto.classify sample structYAML = ⟨.returned (.ok structYAML FormatYAML), []⟩ :=
  ⟨(Unmarshal_classification_agrees sample "@data.toml" .typed ⟨"", "", 0⟩).1,
    (Unmarshal_classification_agrees sample "@locked/secret.json" .typed ⟨"", "", 0⟩).1,
    (Unmarshal_classification_agrees sample structYAML .typed ⟨"", "", 0⟩).1.trans rfl⟩

/-- C14: whenever `Unmarshal` returns, it returns either a nil value with an
error, or a nil error with a value that is a mapping or a sequence; and it
returns unless `os.Stat` fails on the referenced path with an error that is not
a does-not-exist error. -/
theorem Unmarshal_value_xor_error {τ : Type} (env : Env τ) (value : String) :
    (∀ v err, (Unmarshal env value).outcome = .returned (v, err) →
      (err ≠ none ∧ v = .null)
      ∨ (err = none ∧ ((∃ m, v = .map m) ∨ (∃ a, v = .seq a))))
    ∧ ((∀ e, strings.HasPrefix value "@" = true →
          env.stat (strings.TrimPrefix value "@") = .error e →
          os.IsNotExist (some e) = true) →
        ∃ v err, (Unmarshal env value).outcome = .returned (v, err)) := by
  have key : ∀ (c : String) (format : Format) (t : List Event),
      (format = FormatJSON ∨ format = FormatYAML) →
      Unmarshal.classify env value = ⟨.returned (.ok c format), t⟩ →
      ∃ v err, (Unmarshal env value).outcome = .returned (v, err)
        ∧ ((err ≠ none ∧ v = .null)
          ∨ (err = none ∧ ((∃ m, v = .map m) ∨ (∃ a, v = .seq a)))) := by
    intro c format t hf h
    rw [Unmarshal.of_classified env value c format t h]
    have hd : ∃ v err tr, Unmarshal.decode env c format = ⟨.returned (v, err), tr⟩
        ∧ (err ≠ none → v = .null)
        ∧ (err = none → (∃ m, v = .map m) ∨ (∃ a, v = .seq a)) := by
      rcases hf with hf | hf <;> subst hf
      · rcases Unmarshal.decode_json_cases env c with
          ⟨v, err, hd, h1, h2⟩ | ⟨v, err, hd, h1, h2, _⟩
        · exact ⟨v, err, _, hd, h1, h2⟩
        · exact ⟨v, err, _, hd, h1, h2⟩
      · rcases Unmarshal.decode_yaml_cases env c with
          ⟨v, err, hd, h1, h2⟩ | ⟨v, err, hd, h1, h2, _⟩
        · exact ⟨v, err, _, hd, h1, h2⟩
        · exact ⟨v, err, _, hd, h1, h2⟩
    obtain ⟨v, err, tr, hd, h1, h2⟩ := hd
    rw [hd]
    refine ⟨v, err, rfl, ?_⟩
    cases err with
    | none => exact Or.inr ⟨rfl, h2 rfl⟩
    | some e => exact Or.inl ⟨by simp, h1 (by simp)⟩
  obtain ⟨t, _, hcases⟩ := Unmarshal.classify_cases env value
  constructor
  · intro v err hret
    rcases hcases with ⟨h, _⟩ | ⟨e, h⟩ | ⟨c, h⟩ | ⟨c, h⟩
    · rw [Unmarshal.of_panicked env value t h] at hret
      cases hret
    · rw [Unmarshal.of_failed env value e t h] at hret
      cases hret
      exact Or.inl ⟨by simp, rfl⟩
    · obtain ⟨v', err', hv, hx⟩ := key c FormatJSON t (Or.inl rfl) h
      rw [hv] at hret
      cases hret
      exact hx
    · obtain ⟨v', err', hv, hx⟩ := key c FormatYAML t (Or.inr rfl) h
      rw [hv] at hret
      cases hret
      exact hx
  · intro hstat
    rcases hcases with ⟨_, hp, e, hs, hn⟩ | ⟨e, h⟩ | ⟨c, h⟩ | ⟨c, h⟩
    · rw [hstat e hp hs] at hn
      cases hn
    · exact ⟨_, _, congrArg Run.outcome (Unmarshal.of_failed env value e t h)⟩
    · obtain ⟨v, err, hv, _⟩ := key c FormatJSON t (Or.inl rfl) h
      exact ⟨v, err, hv⟩
    · obtain ⟨v, err, hv, _⟩ := key c FormatYAML t (Or.inr rfl) h
      exact ⟨v, err, hv⟩

/-- C14 at the mapping returned for `structYAML`, at the sequence returned for
`[23]`, at the error returned for `@missing.json`, and the return of the call
on `@adir`. -/
theorem Unmarshal_value_xor_error_witness :
    (((none : Option Error) ≠ none
        ∧ Value.map [("name", .str "John"), ("surname", .str "Doe"), ("age", .int 23)]
            = .null)
      ∨ ((none : Option Error) = none
        ∧ ((∃ m, Value.map [("name", .str "John"), ("surname", .str "Doe"), ("age", .int 23)]
              = .map m)
          ∨ (∃ a, Value.map [("name", .str "John"), ("surname", .str "Doe"),
              ("age", .int 23)] = .seq a))))
    ∧ (((none : Option Error) ≠ none ∧ Value.seq [.int 23] = .null)
      ∨ ((none : Option Error) = none
        ∧ ((∃ m, Value.seq [.int 23] = .map m) ∨ (∃ a, Value.seq [.int 23] = .seq a))))
    ∧ ((some (Error.wrapError
          "file 'missing.json' does not exist: stat missing.json: no such file or directory"
          (.os "stat missing.json: no such file or directory" true)) ≠ none
        ∧ Value.null = .null)
      ∨ (some (Error.wrapError
          "file 'missing.json' does not exist: stat missing.json: no such file or directory"
          (.os "stat missing.json: no such file or directory" true)) = none
        ∧ ((∃ m, Value.null = .map m) ∨ (∃ a, Value.null = .seq a))))
    ∧ (∃ v err, (Unmarshal sample "@adir").outcome = .returned (v, err)) :=
  ⟨(Unmarshal_value_xor_error sample structYAML).1 _ _ rfl,
    (Unmarshal_value_xor_error sample numbersJSON).1 _ _ rfl,
    (Unmarshal_value_xor_error sample "@missing.json").1 _ _ rfl,
    (Unmarshal_value_xor_error sample "@adir").2 (fun e _ hs => by
      have h : sample.stat (strings.TrimPrefix "@adir" "@") = .ok ⟨true⟩ := rfl
      rw [h] at hs
      cases hs)⟩

end Complexflag
